import Mathlib

/-!
Verification of the coordination layer in `src/lib/index-browser.es.js`:
the bulk-get shim (`bulkGet`, `nextBatch`, `processBatch`,
`collapseResultsAndFinish`, `checkDone`), the change-feed multiplexer
(`Changes.addListener` and its `eventFunction`), the backoff generator
(`randomNumber`, `defaultBackOff`), the change filter (`tryFilter`,
`filterChange`) and the adapter wrapper (`adapterFun`).

Each definition is a shallow embedding of the corresponding JavaScript
function. Asynchronous callback-driven code is embedded as explicit state
machines whose steps correspond to the events the JavaScript callbacks
observe; pure code is embedded as pure functions. JavaScript numbers are
embedded as `Int` (with explicit 32-bit wrapping where the source uses the
int32 operators `<<` and `~~`), `Math.random()` as a rational parameter in
`[0, 1)`, and dynamic objects as association lists from field name to value.
-/

namespace Pouch

/-! ## Bulk-get shim: data model

`bulkGet(db, opts, callback)` receives `opts.docs`, a list of requests
`{id, rev?, atts_since?, attachments?}`. Each request is embedded as a
`Request`; a JavaScript field that may be absent becomes an `Option`.
A falsy `rev` (absent) is `none`. -/

structure Request where
  id : String
  rev : Option String
  atts_since : Option String
  attachments : Option Bool
deriving DecidableEq

/-- One element of a per-document result list: `{ok: doc}` or `{error: err}`.
Document bodies and error values are opaque to the shim, so both are
embedded as `String`. -/
inductive DocInfo where
  | ok (doc : String)
  | error (err : String)
deriving DecidableEq

/-- The store interface consumed by the shim: `db.get(docId, docOpts, cb)`.
A call without `open_revs` fetches the single winning revision
(`getWinning`); a call with a non-empty `open_revs` list fetches those
revisions and resolves with one entry per returned revision
(`getOpenRevs`). `Except.error` is the `err` branch of the callback. -/
structure Store where
  getWinning : String → Except String String
  getOpenRevs : String → List String → Except String (List DocInfo)

/-- One step of the `requests.forEach` grouping loop in `bulkGet`: insert a
request into the insertion-ordered map `requestsById`, appending to the
existing group when the id is already present (`requestsById.get(request.id)
.push(request)`), else adding a new singleton group at the end. -/
def insertReq (m : List (String × List Request)) (r : Request) :
    List (String × List Request) :=
  match m with
  | [] => [(r.id, [r])]
  | (k, g) :: rest =>
    if k = r.id then (k, g ++ [r]) :: rest else (k, g) :: insertReq rest r

/-- The `requestsById` map built by `bulkGet`: requests grouped by id, the
distinct ids kept in first-seen order (JavaScript `Map` iteration order). -/
def groupRequests (reqs : List Request) : List (String × List Request) :=
  reqs.foldl insertReq []

/-- The per-id `docs` list produced by the `db.get` callback in
`processBatch`: on error the result is `[{error: err}]`; with an empty
open-revisions list the winning-revision result is wrapped by
`formatResultForOpenRevsGet` into `[{ok: result}]`; otherwise the response
list is passed through `identityFunction`. -/
def perIdDocs (st : Store) (id : String) (revs : List String) : List DocInfo :=
  if revs.isEmpty then
    match st.getWinning id with
    | .ok d => [.ok d]
    | .error e => [.error e]
  else
    match st.getOpenRevs id revs with
    | .ok infos => infos
    | .error e => [.error e]

/-- The output assembled by `collapseResultsAndFinish`: for each per-id
result (in id discovery order), one `{id, docs: [info]}` entry per element
of that id's `docs` list. An entry is embedded as the pair
`(id, info)`. The open-revisions list of a group is
`docRequests.map(request => request.rev)` with falsy entries filtered out. -/
def bulkGetResults (st : Store) (reqs : List Request) : List (String × DocInfo) :=
  (groupRequests reqs).flatMap fun p =>
    (perIdDocs st p.1 (p.2.filterMap Request.rev)).map fun info => (p.1, info)

/-- The number of times `checkDone` has reached `collapseResultsAndFinish`
(and hence invoked the completion callback) after `resolved` per-id
fetches have resolved: `checkDone` fires the callback exactly when the
incremented `numDone` equals `numDocs`. -/
def completionFireCount (numDocs resolved : Nat) : Nat :=
  ((List.range resolved).filter fun k => k + 1 == numDocs).length

/-! ## Bulk-get shim: fetch scheduling

`nextBatch` launches `allRequests.slice(i, min(i + 6, length))` and advances
`i`; every single `db.get` completion calls `gotResult` and then
`nextBatch()` again. The scheduler state tracks the number of distinct ids,
how many have been launched (`i`) and how many have completed; launches and
completions are the only events. -/

def MAX_NUM_CONCURRENT_REQUESTS : Nat := 6

structure BulkGetSched where
  total : Nat
  launched : Nat
  done : Nat
deriving DecidableEq

/-- The `nextBatch` function: a no-op once every id has been launched,
otherwise it launches the next `min(launched + 6, total) - launched` ids. -/
def nextBatch (s : BulkGetSched) : BulkGetSched :=
  if s.total ≤ s.launched then s
  else { s with launched := min (s.launched + MAX_NUM_CONCURRENT_REQUESTS) s.total }

/-- The state right after `bulkGet` runs its initial `nextBatch()` call:
nothing launched or done, then one `nextBatch`. -/
def startBulkGet (total : Nat) : BulkGetSched :=
  nextBatch { total := total, launched := 0, done := 0 }

/-- One `db.get` callback firing: `gotResult`/`checkDone` record the
completion, then the callback calls `nextBatch()`. -/
def completeFetch (s : BulkGetSched) : BulkGetSched :=
  nextBatch { s with done := s.done + 1 }

/-- Fetches currently in flight: launched but not yet completed. -/
def inFlight (s : BulkGetSched) : Nat := s.launched - s.done

/-! ## Bulk-get shim: per-fetch options

`processBatch` builds `docOpts` for each id:
`pick(docRequests[0], ["atts_since", "attachments"])`, then
`docOpts.open_revs` from the requested revisions (deleted again when the
filtered list is empty), then each of the globally-supplied options
`revs, attachments, binary, ajax, latest` that is present in `opts`.
JavaScript objects are embedded as association lists in key insertion
order; property assignment overwrites in place or appends. -/

inductive JVal where
  | str (s : String)
  | boolean (b : Bool)
  | arr (a : List String)
deriving DecidableEq

abbrev JObj := List (String × JVal)

/-- Property read: the value at a key, `none` when absent. -/
def jlookup : JObj → String → Option JVal
  | [], _ => none
  | (k, v) :: rest, key => if k = key then some v else jlookup rest key

/-- Property assignment `obj[key] = v`: overwrite in place, else append. -/
def setField : JObj → String → JVal → JObj
  | [], key, v => [(key, v)]
  | (k, w) :: rest, key, v =>
    if k = key then (key, v) :: rest else (k, w) :: setField rest key v

/-- The `["revs", "attachments", "binary", "ajax", "latest"].forEach` loop of
`processBatch`: copy each listed param from the global `opts` into the
accumulated `docOpts` when present (`if (param in opts)`). -/
def applyGlobals (opts : JObj) : List String → JObj → JObj
  | [], acc => acc
  | p :: ps, acc =>
    applyGlobals opts ps
      (match jlookup opts p with
       | some v => setField acc p v
       | none => acc)

/-- The literal param list of the global-options loop in `processBatch`. -/
def bulkGetGlobalParams : List String := ["revs", "attachments", "binary", "ajax", "latest"]

/-- The complete `docOpts` object `processBatch` passes to `db.get` for one
id, given the global `opts` and that id's request group `docRequests`. -/
def buildDocOpts (opts : JObj) (g : List Request) : JObj :=
  let base : JObj :=
    match g with
    | [] => []
    | r :: _ =>
      (match r.atts_since with | some v => [("atts_since", JVal.str v)] | none => []) ++
      (match r.attachments with | some b => [("attachments", JVal.boolean b)] | none => [])
  let revs := g.filterMap Request.rev
  let withRevs := if revs.isEmpty then base else setField base "open_revs" (JVal.arr revs)
  applyGlobals opts bulkGetGlobalParams withRevs

/-! ## Change-feed multiplexer: single-flight runner

`Changes.addListener` closes over `inprogress ∈ {false, true, "waiting"}`
and installs `eventFunction`. A trigger while idle issues one `db.changes`
request; a trigger while a request is in flight sets `inprogress =
"waiting"`; the `complete` handler schedules one `immediate(eventFunction)`
when the state was `"waiting"` and resets `inprogress`; the `error` handler
only resets `inprogress`. The state machine below adds a counter of pending
`immediate` callbacks, the number of in-flight `db.changes` requests and
the total number of requests ever issued. -/

inductive RunState where
  | idle      -- inprogress === false
  | running   -- inprogress === true
  | waiting   -- inprogress === "waiting"
deriving DecidableEq

structure ChangesState where
  run : RunState
  scheduled : Nat   -- pending immediate(eventFunction) callbacks
  inflight : Nat    -- db.changes requests issued but not completed/errored
  calls : Nat       -- total db.changes requests issued
deriving DecidableEq

/-- The body of `eventFunction` for a registered listener: return while a
run is in flight (after coalescing into `"waiting"`), otherwise set
`inprogress = true` and issue one `db.changes` request. -/
def eventFunction (s : ChangesState) : ChangesState :=
  match s.run with
  | .idle => { s with run := .running, inflight := s.inflight + 1, calls := s.calls + 1 }
  | .running => { s with run := .waiting }
  | .waiting => s

/-- External events driving one listener: a notification trigger, the
upstream `complete` handler, the upstream `error` handler, and a scheduled
`immediate(eventFunction)` callback firing. `complete`/`error` are no-ops
when no request is in flight, and a scheduled callback can only fire if one
was scheduled. -/
inductive ChEvent where
  | trigger
  | complete
  | errorEvt
  | immediateRun
deriving DecidableEq

def chStep (s : ChangesState) (e : ChEvent) : ChangesState :=
  match e with
  | .trigger => eventFunction s
  | .complete =>
    if s.inflight = 0 then s
    else
      match s.run with
      | .waiting =>
        { s with run := .idle, scheduled := s.scheduled + 1, inflight := s.inflight - 1 }
      | _ => { s with run := .idle, inflight := s.inflight - 1 }
  | .errorEvt =>
    if s.inflight = 0 then s else { s with run := .idle, inflight := s.inflight - 1 }
  | .immediateRun =>
    if s.scheduled = 0 then s else eventFunction { s with scheduled := s.scheduled - 1 }

/-- The listener state right after `addListener` registers it: idle,
nothing scheduled, nothing in flight, no upstream calls yet. -/
def chInit : ChangesState := { run := .idle, scheduled := 0, inflight := 0, calls := 0 }

/-- The listener state after a sequence of events from registration on. -/
def chRun (es : List ChEvent) : ChangesState := es.foldl chStep chInit

/-! ## Change-feed multiplexer: watermark delivery

The `change` handler installed by `eventFunction`:
`if (c.seq > opts.since && !opts.cancelled) { opts.since = c.seq;
opts.onChange(c); }`. A delivery is recorded as the pair of the event's
`seq` and the value of `opts.since` at the instant `opts.onChange` runs
(the assignment to `opts.since` textually precedes the callback). -/

def deliverEvents (cancelled : Bool) (since : Int) : List Int → List (Int × Int)
  | [] => []
  | c :: cs =>
    if since < c ∧ cancelled = false then (c, c) :: deliverEvents cancelled c cs
    else deliverEvents cancelled since cs

/-! ## Backoff generator

`randomNumber(min, max)` and `defaultBackOff(min)`. `parseInt` of an unset
argument is NaN, embedded as `none`; `(min || 1) << 1` uses the int32 shift
operator and `~~` truncates toward zero to an int32, both embedded with
explicit wrapping; `Math.random()` is the parameter `r ∈ [0, 1)`. -/

/-- JavaScript ToInt32: wrap an integer into `[-2^31, 2^31)`. -/
def jsToInt32 (n : Int) : Int := (n + 2147483648) % 4294967296 - 2147483648

/-- The JavaScript expression `n << 1` on an integer-valued number. -/
def jsShl1 (n : Int) : Int := jsToInt32 (jsToInt32 n * 2)

/-- Truncation toward zero of a rational. -/
def ratTrunc (q : ℚ) : Int := if 0 ≤ q then ⌊q⌋ else -⌊-q⌋

/-- The JavaScript expression `~~q`: truncate toward zero, then ToInt32. -/
def jsTrunc32 (q : ℚ) : Int := jsToInt32 (ratTrunc q)

def maxTimeout : Int := 600000

/-- The maximum `randomNumber` computes before the `maxTimeout` cap check:
`(min || 1) << 1` when `max` is NaN or `max <= min`, else `max + 1`. -/
def preCapMax (minIn maxIn : Option Int) : Int :=
  match maxIn with
  | none => jsShl1 (if minIn.getD 0 = 0 then 1 else minIn.getD 0)
  | some m =>
    if m ≤ minIn.getD 0 then jsShl1 (if minIn.getD 0 = 0 then 1 else minIn.getD 0)
    else m + 1

/-- `randomNumber(min, max)`: derive the window, shrink it to
`[maxTimeout >> 1, maxTimeout]` when its maximum exceeds `maxTimeout`, then
return `~~(range * ratio + min)` where `range = max - min`. -/
def randomNumber (minIn maxIn : Option Int) (r : ℚ) : Int :=
  if maxTimeout < preCapMax minIn maxIn then
    jsTrunc32 (((maxTimeout - 300000 : Int) : ℚ) * r + ((300000 : Int) : ℚ))
  else
    jsTrunc32 (((preCapMax minIn maxIn - minIn.getD 0 : Int) : ℚ) * r
      + ((minIn.getD 0 : Int) : ℚ))

/-- `defaultBackOff(min)`: `max = 0`, or `2000` when `min` is falsy, then
`randomNumber(min, max)`. -/
def defaultBackOff (minIn : Option Int) (r : ℚ) : Int :=
  randomNumber minIn (some (if minIn.getD 0 = 0 then 2000 else 0)) r

/-! ## Change filter

`tryFilter(filter, doc, req)` returns `!filter(doc, req)` and converts a
thrown error into `createError(BAD_REQUEST, "Filter function threw: " +
err.toString())` — an object. `filterChange(opts)` returns a predicate
that yields that error object, or `false` (drop), or `true` (deliver) after
mutating the change record. A user filter is embedded as a function
returning `Except`, where `Except.error` is a throw. -/

structure Att where
  stub : Bool
  content : Option String
deriving DecidableEq

structure Doc where
  body : String
  atts : List (String × Att)
deriving DecidableEq

structure ChangeRec where
  seq : Int
  doc : Option Doc
deriving DecidableEq

/-- The subset of the `opts` given to `filterChange` that the returned
predicate reads: `opts.filter`, `opts.query_params` (packed into `req`),
`opts.include_docs` and `opts.attachments`. -/
structure FilterOpts where
  filter : Option (Doc → Option String → Except String Bool)
  query_params : Option String
  include_docs : Bool
  attachments : Bool

/-- The result of the `filter(change)` predicate: a boolean or the error
object produced in `tryFilter`'s catch branch. -/
inductive FilterRet where
  | boolVal (b : Bool)
  | errObject (msg : String)
deriving DecidableEq

def tryFilter (f : Doc → Option String → Except String Bool)
    (doc : Doc) (req : Option String) : FilterRet :=
  match f doc req with
  | .ok b => .boolVal (!b)
  | .error err => .errObject ("Filter function threw: " ++ err)

/-- `change.doc._attachments[att].stub = true` for every attachment. -/
def stubAtts (d : Doc) : Doc :=
  { d with atts := d.atts.map fun p => (p.1, { p.2 with stub := true }) }

/-- The empty object assigned by `change.doc = {}` when the event carries
no document. -/
def emptyDoc : Doc := { body := "", atts := [] }

/-- What the predicate returned by `filterChange(opts)` does to one change
event: the mutated change record together with the returned value. -/
inductive ChangeVerdict where
  | pass (c : ChangeRec)                    -- returned true
  | rejected                                -- returned false
  | errObject (msg : String) (c : ChangeRec) -- returned the error object
deriving DecidableEq

def filterChange (opts : FilterOpts) (change : ChangeRec) : ChangeVerdict :=
  let d : Doc := change.doc.getD emptyDoc
  let change1 : ChangeRec := { change with doc := some d }
  let filterReturn : Option FilterRet :=
    match opts.filter with
    | some f => some (tryFilter f d opts.query_params)
    | none => none
  match filterReturn with
  | some (.errObject m) => .errObject m change1
  | some (.boolVal true) => .rejected
  | _ =>
    if !opts.include_docs then .pass { change1 with doc := none }
    else if !opts.attachments then .pass { change1 with doc := some (stubAtts d) }
    else .pass change1

/-- Modelled from the spec: the change-feed implementation that consumes the
predicate returned by `filterChange` is not part of `src/` (only the
predicate itself is). Per the spec, the consumer delivers the event unless
the predicate returned plain `false`, and attaches the returned error
object to the event as an error marker when the predicate returned one.
The delivered event is the (possibly mutated) change record paired with the
optional error marker; `none` is a dropped event. -/
def deliverChange (opts : FilterOpts) (change : ChangeRec) :
    Option (ChangeRec × Option String) :=
  match filterChange opts change with
  | .pass c => some (c, none)
  | .rejected => none
  | .errObject m c => some (c, some m)

/-! ## Adapter wrapper

`adapterFun(name, callback)` first rejects on a closed or destroyed handle,
then defers through the task queue when it is not ready, and only then
invokes the wrapped callback. -/

structure DbHandle where
  closed : Bool          -- this._closed
  destroyed : Bool       -- this._destroyed
  taskqueueReady : Bool  -- this.taskqueue.isReady
deriving DecidableEq

inductive AdapterOutcome where
  | rejected (msg : String)
  | queuedTask
  | invokedCallback
deriving DecidableEq

def adapterFun (db : DbHandle) : AdapterOutcome :=
  if db.closed then .rejected "database is closed"
  else if db.destroyed then .rejected "database is destroyed"
  else if !db.taskqueueReady then .queuedTask
  else .invokedCallback


/-! ## Helper lemmas -/

lemma length_flatMap_sum {α β : Type} (l : List α) (f : α → List β) :
    (l.flatMap f).length = (l.map fun a => (f a).length).sum := by
  induction l with
  | nil => rfl
  | cons a t ih => simp [ih]

lemma sizes_insertReq (m : List (String × List Request)) (r : Request) :
    ((insertReq m r).map fun p => p.2.length).sum
      = ((m.map fun p => p.2.length).sum) + 1 := by
  induction m with
  | nil => simp [insertReq]
  | cons hd tl ih =>
    obtain ⟨k, g⟩ := hd
    by_cases h : k = r.id <;> simp [insertReq, h, ih] <;> omega

lemma sizes_foldl_insertReq (reqs : List Request) :
    ∀ m : List (String × List Request),
      ((reqs.foldl insertReq m).map fun p => p.2.length).sum
        = ((m.map fun p => p.2.length).sum) + reqs.length := by
  induction reqs with
  | nil => intro m; simp
  | cons r rs ih =>
    intro m
    rw [List.foldl_cons, ih (insertReq m r), sizes_insertReq]
    simp; omega

/-- The grouping pass of `bulkGet` partitions the requests: group sizes sum
to the request count. -/
lemma sizes_groupRequests (reqs : List Request) :
    ((groupRequests reqs).map fun p => p.2.length).sum = reqs.length := by
  have h := sizes_foldl_insertReq reqs []
  simpa [groupRequests] using h

lemma groupRequests_ne_nil (reqs : List Request) (h : reqs ≠ []) :
    groupRequests reqs ≠ [] := by
  intro hg
  have := sizes_groupRequests reqs
  rw [hg] at this
  simp at this
  exact h (List.length_eq_zero.mp this.symm)

lemma fireCount_before_last (n m : Nat) (h : m < n) : completionFireCount n m = 0 := by
  unfold completionFireCount
  rw [List.length_eq_zero, List.filter_eq_nil_iff]
  intro a ha
  rw [List.mem_range] at ha
  simp only [beq_iff_eq]
  omega

lemma fireCount_at_last (n : Nat) : completionFireCount (n + 1) (n + 1) = 1 := by
  unfold completionFireCount
  rw [List.range_succ, List.filter_append]
  have h1 : (List.range n).filter (fun k => k + 1 == n + 1) = [] := by
    rw [List.filter_eq_nil_iff]
    intro a ha
    rw [List.mem_range] at ha
    simp only [beq_iff_eq]
    omega
  rw [h1]
  simp

/-! ## Claim C1 -/

/-- Claim C1: the spec asserts the in-flight fetch count of one bulk-get
invocation never exceeds the cap of 6, and that with 8 distinct ids, ids 7
and 8 start only as earlier fetches complete. The code violates the bound:
the initial `nextBatch()` launches 6 fetches, and the very first completed
fetch runs `nextBatch()` again, which launches the remaining two ids at
once, so 7 fetches are in flight while only one has completed. -/
theorem bulkGet_cap_exceeded_at_eight :
    inFlight (startBulkGet 8) = 6 ∧
    inFlight (completeFetch (startBulkGet 8)) = 7 ∧
    MAX_NUM_CONCURRENT_REQUESTS < inFlight (completeFetch (startBulkGet 8)) := by
  decide

/-! ## Claim C2 -/

/-- Claim C2 (amended): the output entry count of a bulk-get invocation
equals the input request count provided each per-id fetch yields exactly
one doc-info per original request targeting that id — which the code
guarantees only when the store answers one entry per requested revision,
no fetch errors, and no request omits its revision unless it is the only
request for its id. -/
theorem bulkGet_explodes_per_request (st : Store) (reqs : List Request)
    (h : ∀ p ∈ groupRequests reqs,
      (perIdDocs st p.1 (p.2.filterMap Request.rev)).length = p.2.length) :
    (bulkGetResults st reqs).length = reqs.length := by
  unfold bulkGetResults
  rw [length_flatMap_sum]
  have hmap : (groupRequests reqs).map
        (fun p => ((perIdDocs st p.1 (p.2.filterMap Request.rev)).map
          fun info => (p.1, info)).length)
      = (groupRequests reqs).map fun p => p.2.length :=
    List.map_congr_left fun p hp => by rw [List.length_map, h p hp]
  rw [hmap]
  exact sizes_groupRequests reqs

/-- A store that answers every winning-revision fetch with one document and
every open-revisions fetch with exactly one `{ok}` entry per requested
revision, never failing. -/
def perRevStore : Store where
  getWinning := fun _ => .ok "winner"
  getOpenRevs := fun _ revs => .ok (revs.map DocInfo.ok)

/-- Counterexample to claim C2 as stated: two requests target id `a`, one
of them with no revision. The rev-less request contributes no entry to the
open-revisions list, the store dutifully returns one entry for the single
requested revision, and the output has 1 entry for 2 input requests — a
request was dropped even though every fetch succeeded. -/
theorem bulkGet_count_drops_revless_request :
    (bulkGetResults perRevStore
      [{ id := "a", rev := none, atts_since := none, attachments := none },
       { id := "a", rev := some "1-r", atts_since := none, attachments := none }]).length = 1 ∧
    ([{ id := "a", rev := none, atts_since := none, attachments := none },
      { id := "a", rev := some "1-r", atts_since := none, attachments := none }] :
        List Request).length = 2 := by
  decide

/-- Witness for the amended claim C2: three requests (a rev-less singleton
and a two-revision group) against a per-revision store explode into three
output entries. -/
theorem bulkGet_explodes_per_request_spot :
    (bulkGetResults perRevStore
      [{ id := "a", rev := none, atts_since := none, attachments := none },
       { id := "b", rev := some "1-x", atts_since := none, attachments := none },
       { id := "b", rev := some "2-y", atts_since := none, attachments := none }]).length
    = ([{ id := "a", rev := none, atts_since := none, attachments := none },
        { id := "b", rev := some "1-x", atts_since := none, attachments := none },
        { id := "b", rev := some "2-y", atts_since := none, attachments := none }] :
          List Request).length :=
  bulkGet_explodes_per_request perRevStore _ (by decide)

/-! ## Claim C5 -/

/-- Claim C5 (amended): for every bulk-get invocation with at least one
request, the completion callback fires exactly once, only after all
distinct ids have resolved (never while fewer have resolved), and a fetch
failure for one id is captured as a `{error}` doc-info in that id's result
rather than aborting the batch. For the empty invocation the callback
never fires (see the counterexample). -/
theorem bulkGet_completion_once (st : Store) (reqs : List Request) (h : reqs ≠ []) :
    (∀ m < (groupRequests reqs).length,
      completionFireCount (groupRequests reqs).length m = 0) ∧
    completionFireCount (groupRequests reqs).length (groupRequests reqs).length = 1 ∧
    (∀ id revs e, revs ≠ [] → st.getOpenRevs id revs = .error e →
      perIdDocs st id revs = [.error e]) ∧
    (∀ id e, st.getWinning id = .error e → perIdDocs st id [] = [.error e]) := by
  refine ⟨fun m hm => fireCount_before_last _ _ hm, ?_, ?_, ?_⟩
  · have hg := groupRequests_ne_nil reqs h
    obtain ⟨n, hn⟩ : ∃ n, (groupRequests reqs).length = n + 1 := by
      cases hl : (groupRequests reqs).length with
      | zero => exact absurd (List.length_eq_zero.mp hl) hg
      | succ n => exact ⟨n, rfl⟩
    rw [hn]
    exact fireCount_at_last n
  · intro id revs e hrevs he
    cases revs with
    | nil => exact absurd rfl hrevs
    | cons a t => simp [perIdDocs, he]
  · intro id e he
    simp [perIdDocs, he]

/-- A store whose every fetch fails. -/
def failingStore : Store where
  getWinning := fun _ => .error "network error"
  getOpenRevs := fun _ _ => .error "network error"

/-- Counterexample to claim C5 as stated: a bulk-get invocation with an
empty request list has zero distinct ids, `nextBatch()` returns
immediately, `checkDone` is never reached, and the completion callback
fires zero times instead of exactly once. -/
theorem bulkGet_empty_never_completes :
    (groupRequests ([] : List Request)).length = 0 ∧
    completionFireCount (groupRequests ([] : List Request)).length 0 = 0 := by
  decide

/-- Witness for the amended claim C5: a single-request invocation against a
store that fails every fetch still fires the completion callback exactly
once, with the failure captured as an `{error}` doc-info. -/
theorem bulkGet_completion_once_spot :
    completionFireCount
      (groupRequests [{ id := "a", rev := none, atts_since := none, attachments := none }]).length
      (groupRequests [{ id := "a", rev := none, atts_since := none, attachments := none }]).length
      = 1 ∧
    perIdDocs failingStore "a" [] = [.error "network error"] :=
  ⟨(bulkGet_completion_once failingStore _ (by decide)).2.1,
   (bulkGet_completion_once failingStore
      [{ id := "a", rev := none, atts_since := none, attachments := none }]
      (by decide)).2.2.2 "a" "network error" rfl⟩

/-! ## Claim C10 -/

/-- Claim C10 (amended): an operation wrapped by `adapterFun` rejects with
`Error("database is closed")` when the handle is flagged closed, rejects
with `Error("database is destroyed")` when flagged destroyed and not also
flagged closed (the closed check runs first and wins when both flags are
set), and in either case neither queues a task nor invokes the underlying
operation. -/
theorem adapterFun_guards (db : DbHandle) :
    (db.closed = true → adapterFun db = .rejected "database is closed") ∧
    (db.destroyed = true → db.closed = false →
      adapterFun db = .rejected "database is destroyed") ∧
    ((db.closed = true ∨ db.destroyed = true) →
      adapterFun db ≠ .queuedTask ∧ adapterFun db ≠ .invokedCallback) := by
  obtain ⟨c, d, t⟩ := db
  cases c <;> cases d <;> cases t <;> decide

/-- Counterexample to claim C10 as stated: a handle flagged both closed and
destroyed rejects with the closed error, not the destroyed error the claim
requires for every destroyed handle. -/
theorem adapterFun_closed_wins :
    adapterFun { closed := true, destroyed := true, taskqueueReady := true }
      = AdapterOutcome.rejected "database is closed" ∧
    AdapterOutcome.rejected "database is closed"
      ≠ AdapterOutcome.rejected "database is destroyed" := by
  decide

/-- Witness for the amended claim C10: a destroyed (and not closed) handle
rejects with the destroyed error. -/
theorem adapterFun_guards_spot :
    adapterFun { closed := false, destroyed := true, taskqueueReady := true }
      = AdapterOutcome.rejected "database is destroyed" :=
  (adapterFun_guards _).2.1 rfl rfl

/-! ## Claim C3 -/

/-- The single-flight invariant of one registered listener: a run is in
flight exactly while `inprogress` is not `false`, so the in-flight count is
0 or 1. -/
def ChInv (s : ChangesState) : Prop :=
  (s.run = .idle ∧ s.inflight = 0) ∨ (s.run ≠ .idle ∧ s.inflight = 1)

lemma chInv_step (s : ChangesState) (e : ChEvent) (h : ChInv s) : ChInv (chStep s e) := by
  obtain ⟨r, sc, fl, ca⟩ := s
  rcases h with ⟨h1, h2⟩ | ⟨h1, h2⟩ <;>
    cases e <;> cases r <;> by_cases hsc : sc = 0 <;>
    simp_all [chStep, eventFunction, ChInv]

lemma chInv_foldl (es : List ChEvent) :
    ∀ s : ChangesState, ChInv s → ChInv (es.foldl chStep s) := by
  induction es with
  | nil => intro s h; exact h
  | cons e t ih => intro s h; exact ih _ (chInv_step s e h)

/-- Claim C3: for every registered subscription and every event sequence, at
most one upstream `db.changes` call is in flight at any instant; and in the
scenario "fire one trigger, then two more while the first run is in flight,
then let both runs complete", exactly 2 upstream calls are issued in total
(the initial run plus one coalesced follow-up), never 3. -/
theorem changes_single_flight :
    (∀ es : List ChEvent, (chRun es).inflight ≤ 1) ∧
    (chRun [.trigger, .trigger, .trigger, .complete, .immediateRun, .complete]).calls = 2 := by
  constructor
  · intro es
    have h := chInv_foldl es chInit (Or.inl ⟨rfl, rfl⟩)
    unfold chRun
    rcases h with ⟨_, h2⟩ | ⟨_, h2⟩ <;> omega
  · decide

/-! ## Claim C4 -/

lemma deliverEvents_mem (s : Int) (cs : List Int) :
    ∀ p ∈ deliverEvents false s cs, s < p.1 ∧ p.2 = p.1 := by
  induction cs generalizing s with
  | nil => intro p hp; simp [deliverEvents] at hp
  | cons c t ih =>
    intro p hp
    by_cases hc : s < c
    · simp only [deliverEvents, hc, true_and, if_pos, List.mem_cons] at hp
      rcases hp with rfl | hp
      · exact ⟨hc, rfl⟩
      · have h2 := ih c p hp
        exact ⟨lt_trans hc h2.1, h2.2⟩
    · simp only [deliverEvents, hc, false_and, if_neg, not_false_iff] at hp
      exact ih s p hp

lemma deliverEvents_pairwise (s : Int) (cs : List Int) :
    ((deliverEvents false s cs).map Prod.fst).Pairwise (· < ·) := by
  induction cs generalizing s with
  | nil => simp [deliverEvents]
  | cons c t ih =>
    by_cases hc : s < c
    · simp only [deliverEvents, hc, true_and, if_pos, List.map_cons]
      rw [List.pairwise_cons]
      refine ⟨fun b hb => ?_, ih c⟩
      obtain ⟨p, hp, rfl⟩ := List.mem_map.mp hb
      exact (deliverEvents_mem c t p hp).1
    · simp only [deliverEvents, hc, false_and, if_neg, not_false_iff]
      exact ih s

/-- Claim C4: on one subscription, the change handler delivers an event only
when its seq strictly exceeds the current watermark `opts.since`, updates
the watermark before running the consumer callback (each delivery records
the watermark value the callback observes, and it already equals the
delivered seq), and hence the delivered seq values are strictly
increasing. -/
theorem watermark_gates_delivery (since : Int) (seqs : List Int) :
    ((deliverEvents false since seqs).map Prod.fst).Pairwise (· < ·) ∧
    ∀ p ∈ deliverEvents false since seqs, since < p.1 ∧ p.2 = p.1 :=
  ⟨deliverEvents_pairwise since seqs, deliverEvents_mem since seqs⟩

/-- Witness for claim C4: from watermark 0 over the feed `[1, 1, 2]` the
deliveries are strictly increasing and the entry `(1, 1)` was delivered
with the watermark already advanced to its seq. -/
theorem watermark_gates_delivery_spot :
    ((deliverEvents false 0 [1, 1, 2]).map Prod.fst).Pairwise (· < ·) ∧
    ((0 : Int) < ((1 : Int), (1 : Int)).1 ∧
      ((1 : Int), (1 : Int)).2 = ((1 : Int), (1 : Int)).1) :=
  ⟨(watermark_gates_delivery 0 [1, 1, 2]).1,
   (watermark_gates_delivery 0 [1, 1, 2]).2 (1, 1) (by decide)⟩

/-! ## Claims C6 and C7 -/

lemma jsToInt32_id (n : Int) (h0 : 0 ≤ n) (h1 : n < 2147483648) : jsToInt32 n = n := by
  unfold jsToInt32; omega

lemma jsShl1_double (n : Int) (h0 : 0 < n) (h1 : n < 1073741824) : jsShl1 n = 2 * n := by
  unfold jsShl1 jsToInt32; omega

lemma floor_mul_lt (range : Int) (r : ℚ) (h0 : 0 ≤ r) (h1 : r < 1) (hr : 0 < range) :
    0 ≤ ⌊(range : ℚ) * r⌋ ∧ ⌊(range : ℚ) * r⌋ < range := by
  constructor
  · exact Int.floor_nonneg.mpr (mul_nonneg (by exact_mod_cast hr.le) h0)
  · rw [Int.floor_lt]
    calc (range : ℚ) * r < (range : ℚ) * 1 :=
          mul_lt_mul_of_pos_left h1 (by exact_mod_cast hr)
      _ = (range : ℚ) := mul_one _

/-- `~~(range * ratio + min)` lands in `[min, min + range)` whenever the
window is sane and small enough that the int32 coercion is the identity. -/
lemma jsTrunc32_window (lo range : Int) (r : ℚ) (hlo : 0 ≤ lo) (hrange : 0 < range)
    (hmax : lo + range ≤ 600000) (h0 : 0 ≤ r) (h1 : r < 1) :
    lo ≤ jsTrunc32 ((range : ℚ) * r + (lo : ℚ)) ∧
    jsTrunc32 ((range : ℚ) * r + (lo : ℚ)) < lo + range := by
  obtain ⟨hf0, hf1⟩ := floor_mul_lt range r h0 h1 hrange
  have hq : (0 : ℚ) ≤ (range : ℚ) * r + (lo : ℚ) := by
    have ha : (0 : ℚ) ≤ (range : ℚ) * r :=
      mul_nonneg (by exact_mod_cast hrange.le) h0
    have hb : (0 : ℚ) ≤ (lo : ℚ) := by exact_mod_cast hlo
    linarith
  have hfl : ⌊(range : ℚ) * r + (lo : ℚ)⌋ = ⌊(range : ℚ) * r⌋ + lo :=
    Int.floor_add_int _ _
  unfold jsTrunc32 ratTrunc
  rw [if_pos hq, hfl, jsToInt32_id _ (by omega) (by omega)]
  omega

/-- For a nonnegative minimum below `2^30`, the pre-cap maximum computed by
`randomNumber` strictly exceeds the minimum (the int32 doubling cannot
wrap). -/
lemma preCapMax_gt_min (minIn maxIn : Option Int)
    (h0 : 0 ≤ minIn.getD 0) (h1 : minIn.getD 0 < 1073741824) :
    minIn.getD 0 < preCapMax minIn maxIn := by
  have hdbl : minIn.getD 0 < jsShl1 (if minIn.getD 0 = 0 then 1 else minIn.getD 0) := by
    by_cases hz : minIn.getD 0 = 0
    · rw [if_pos hz, jsShl1_double 1 (by omega) (by omega)]; omega
    · rw [if_neg hz, jsShl1_double _ (by omega) h1]; omega
  cases maxIn with
  | none => exact hdbl
  | some m =>
    show minIn.getD 0 < if m ≤ minIn.getD 0 then _ else m + 1
    by_cases hm2 : m ≤ minIn.getD 0
    · rw [if_pos hm2]; exact hdbl
    · rw [if_neg hm2]; omega

/-- Claim C7 (amended): for every input whose minimum is a nonnegative
number below `2^30` (so the int32 doubling `(min || 1) << 1` cannot wrap),
any maximum, and any random ratio in `[0, 1)`, the output of `randomNumber`
lies within `[0, 600000]`; and whenever the computed window's maximum
exceeds the 600000 ms ceiling, the window is shrunk to `[300000, 600000]`
before the draw, so the output then lies in `[300000, 600000)`. Negative
minima, or minima of `2^30` and above, escape the cap (see the
counterexample). -/
theorem randomNumber_capped (minIn maxIn : Option Int) (r : ℚ)
    (hm0 : 0 ≤ minIn.getD 0) (hm1 : minIn.getD 0 < 1073741824)
    (h0 : 0 ≤ r) (h1 : r < 1) :
    (0 ≤ randomNumber minIn maxIn r ∧ randomNumber minIn maxIn r ≤ 600000) ∧
    (maxTimeout < preCapMax minIn maxIn →
      300000 ≤ randomNumber minIn maxIn r ∧ randomNumber minIn maxIn r < 600000) := by
  have hgt := preCapMax_gt_min minIn maxIn hm0 hm1
  have hMT : maxTimeout = 600000 := rfl
  unfold randomNumber
  by_cases hcap : maxTimeout < preCapMax minIn maxIn
  · rw [if_pos hcap]
    obtain ⟨hl, hu⟩ := jsTrunc32_window 300000 (maxTimeout - 300000) r
      (by omega) (by omega) (by omega) h0 h1
    exact ⟨⟨by omega, by omega⟩, fun _ => ⟨hl, by omega⟩⟩
  · rw [if_neg hcap]
    have hle : preCapMax minIn maxIn ≤ 600000 := by omega
    obtain ⟨hl, hu⟩ := jsTrunc32_window (minIn.getD 0)
      (preCapMax minIn maxIn - minIn.getD 0) r hm0 (by omega) (by omega) h0 h1
    exact ⟨⟨by omega, by omega⟩, fun hc => absurd hc hcap⟩

/-- Counterexample to claim C7 as stated: with minimum `2^30` (and no
maximum) the int32 doubling `(min || 1) << 1` wraps to `-2^31`, the cap
check does not fire, and with ratio `1/2` the result is a negative number,
far outside `[0, 600000]`. -/
theorem randomNumber_wraps_negative :
    randomNumber (some 1073741824) none (1 / 2) = -536870912 ∧
    (-536870912 : Int) < 0 := by
  constructor
  · norm_num [randomNumber, preCapMax, jsShl1, jsToInt32, jsTrunc32, ratTrunc, maxTimeout]
  · decide

/-- Witness for the amended claim C7: `randomNumber(1000, 5000)` at ratio
`1/2` lies within `[0, 600000]`. -/
theorem randomNumber_capped_spot :
    0 ≤ randomNumber (some 1000) (some 5000) (1 / 2) ∧
    randomNumber (some 1000) (some 5000) (1 / 2) ≤ 600000 :=
  (randomNumber_capped (some 1000) (some 5000) (1 / 2)
    (by decide) (by decide) (by norm_num) (by norm_num)).1

/-- Claim C6 (amended): calling `randomNumber` with only a minimum `M` and
no maximum yields an integer within `[M, 2M]` provided `1 ≤ M ≤ 300000`;
for `M > 300000` the doubled maximum exceeds the 600000 cap and the draw
comes from `[300000, 600000)` instead, which can fall below `M` (see the
counterexample). When `M` is 0 or unset the result lies within `[0, 2)`.
`defaultBackOff(M)` for truthy `M` passes `max = 0` and so agrees with
`randomNumber(M, unset)`; in particular `backoff(min=1000, max=unset)`
always returns a value within `[1000, 2001)`. -/
theorem randomNumber_doubling_window (M : Int) (r : ℚ) (h0 : 0 ≤ r) (h1 : r < 1) :
    (1 ≤ M → M ≤ 300000 →
      M ≤ randomNumber (some M) none r ∧ randomNumber (some M) none r ≤ 2 * M) ∧
    (0 ≤ randomNumber (some 0) none r ∧ randomNumber (some 0) none r < 2) ∧
    (0 ≤ randomNumber none none r ∧ randomNumber none none r < 2) ∧
    (1 ≤ M → defaultBackOff (some M) r = randomNumber (some M) none r) ∧
    (1000 ≤ defaultBackOff (some 1000) r ∧ defaultBackOff (some 1000) r < 2001) := by
  have key : ∀ N : Int, 1 ≤ N → N ≤ 300000 →
      N ≤ randomNumber (some N) none r ∧ randomNumber (some N) none r ≤ 2 * N := by
    intro N hN1 hN2
    have hpre : preCapMax (some N) none = 2 * N := by
      show jsShl1 (if (some N).getD 0 = 0 then 1 else (some N).getD 0) = 2 * N
      simp only [Option.getD_some]
      rw [if_neg (by omega), jsShl1_double N (by omega) (by omega)]
    unfold randomNumber
    rw [hpre, if_neg (by rw [show maxTimeout = (600000 : Int) from rfl]; omega)]
    simp only [Option.getD_some]
    obtain ⟨hl, hu⟩ := jsTrunc32_window N (2 * N - N) r
      (by omega) (by omega) (by omega) h0 h1
    exact ⟨hl, by omega⟩
  have dbeq : ∀ N : Int, 1 ≤ N →
      defaultBackOff (some N) r = randomNumber (some N) none r := by
    intro N hN1
    have hpp : preCapMax (some N) (some 0) = preCapMax (some N) none := by
      unfold preCapMax
      simp only [Option.getD_some]
      rw [if_pos (by omega : (0 : Int) ≤ N)]
    unfold defaultBackOff
    simp only [Option.getD_some]
    rw [if_neg (by omega : ¬ N = 0)]
    unfold randomNumber
    rw [hpp]
  have small : ∀ mi : Option Int, mi.getD 0 = 0 → preCapMax mi none = 2 →
      0 ≤ randomNumber mi none r ∧ randomNumber mi none r < 2 := by
    intro mi hmi hpre
    unfold randomNumber
    rw [hpre, hmi, if_neg (by rw [show maxTimeout = (600000 : Int) from rfl]; omega)]
    obtain ⟨hl, hu⟩ := jsTrunc32_window 0 (2 - 0) r
      (by omega) (by omega) (by omega) h0 h1
    exact ⟨by omega, by omega⟩
  refine ⟨key M, small (some 0) rfl (by decide), small none rfl (by decide), dbeq M, ?_⟩
  have h1000 := key 1000 (by omega) (by omega)
  rw [dbeq 1000 (by omega)]
  omega

/-- Counterexample to claim C6 as stated: with minimum `M = 400000` and no
maximum, the doubled maximum 800000 exceeds the cap, the window shrinks to
`[300000, 600000]`, and ratio 0 yields 300000 — strictly below `M`, outside
the claimed `[M, 2M]`. -/
theorem randomNumber_doubling_window_cap_escape :
    randomNumber (some 400000) none 0 = 300000 ∧
    (300000 : Int) < 400000 := by
  constructor
  · norm_num [randomNumber, preCapMax, jsShl1, jsToInt32, jsTrunc32, ratTrunc, maxTimeout]
  · decide

/-- Witness for the amended claim C6: `defaultBackOff(1000)` at ratio `1/2`
lies within `[1000, 2001)`. -/
theorem randomNumber_doubling_window_spot :
    1000 ≤ defaultBackOff (some 1000) (1 / 2) ∧
    defaultBackOff (some 1000) (1 / 2) < 2001 :=
  (randomNumber_doubling_window 1000 (1 / 2) (by norm_num) (by norm_num)).2.2.2.2

/-! ## Claim C8 -/

/-- Claim C8: when a configured filter throws during evaluation, the thrown
error is captured by `tryFilter` as a `BAD_REQUEST` error object whose
message carries the thrown error, `filterChange` returns that object
instead of `false`, and the (spec-modelled) consumer therefore still
delivers the change event, carrying the error marker — the event is never
silently dropped. -/
theorem filter_error_still_delivered (opts : FilterOpts) (c : ChangeRec)
    (f : Doc → Option String → Except String Bool) (e : String)
    (hf : opts.filter = some f)
    (he : f (c.doc.getD emptyDoc) opts.query_params = .error e) :
    deliverChange opts c =
      some ({ c with doc := some (c.doc.getD emptyDoc) },
            some ("Filter function threw: " ++ e)) := by
  simp only [deliverChange, filterChange, tryFilter, hf, he]

/-- A user filter that always throws. -/
def throwingFilter : Doc → Option String → Except String Bool :=
  fun _ _ => .error "boom"

/-- Witness for claim C8: a change event with no document, run against a
throwing filter, is delivered with the captured error marker attached. -/
theorem filter_error_still_delivered_spot :
    deliverChange
      { filter := some throwingFilter, query_params := none,
        include_docs := true, attachments := true }
      { seq := 1, doc := none } =
    some ({ ({ seq := 1, doc := none } : ChangeRec) with
              doc := some ((none : Option Doc).getD emptyDoc) },
          some ("Filter function threw: " ++ "boom")) :=
  filter_error_still_delivered _ _ throwingFilter "boom" rfl rfl

/-! ## Claim C9 -/

lemma jlookup_setField_self (o : JObj) (k : String) (v : JVal) :
    jlookup (setField o k v) k = some v := by
  induction o with
  | nil => simp [setField, jlookup]
  | cons hd tl ih =>
    obtain ⟨k0, w⟩ := hd
    by_cases h : k0 = k <;> simp [setField, jlookup, h, ih]

lemma jlookup_setField_ne (o : JObj) (k k2 : String) (v : JVal) (h : k2 ≠ k) :
    jlookup (setField o k v) k2 = jlookup o k2 := by
  have hne : ¬ k = k2 := fun hh => h hh.symm
  induction o with
  | nil => simp [setField, jlookup, hne]
  | cons hd tl ih =>
    obtain ⟨k0, w⟩ := hd
    by_cases h0 : k0 = k
    · subst h0
      simp [setField, jlookup, hne]
    · simp only [setField, if_neg h0, jlookup]
      by_cases h2 : k0 = k2
      · rw [if_pos h2, if_pos h2]
      · rw [if_neg h2, if_neg h2, ih]

lemma jlookup_applyGlobals_notmem (opts : JObj) (ps : List String) (acc : JObj)
    (k : String) (h : k ∉ ps) :
    jlookup (applyGlobals opts ps acc) k = jlookup acc k := by
  induction ps generalizing acc with
  | nil => rfl
  | cons p pt ih =>
    have hk : k ≠ p := fun hh => h (hh ▸ List.mem_cons_self p pt)
    have hmem : k ∉ pt := fun hh => h (List.mem_cons_of_mem p hh)
    show jlookup (applyGlobals opts pt _) k = jlookup acc k
    cases hv : jlookup opts p with
    | none => simp only [hv]; exact ih _ hmem
    | some v =>
      simp only [hv]
      rw [ih _ hmem, jlookup_setField_ne _ _ _ _ hk]

lemma jlookup_applyGlobals_mem (opts : JObj) (ps : List String) (acc : JObj)
    (k : String) (v : JVal) (hmem : k ∈ ps) (hnd : ps.Nodup)
    (hv : jlookup opts k = some v) :
    jlookup (applyGlobals opts ps acc) k = some v := by
  induction ps generalizing acc with
  | nil => simp at hmem
  | cons p pt ih =>
    rcases List.mem_cons.mp hmem with rfl | hmem2
    · have hnot : k ∉ pt := (List.nodup_cons.mp hnd).1
      show jlookup (applyGlobals opts pt _) k = some v
      simp only [hv]
      rw [jlookup_applyGlobals_notmem _ _ _ _ hnot, jlookup_setField_self]
    · have hnd2 := (List.nodup_cons.mp hnd).2
      show jlookup (applyGlobals opts pt _) k = some v
      cases hl : jlookup opts p with
      | none => simp only [hl]; exact ih _ hmem2 hnd2
      | some w => simp only [hl]; exact ih _ hmem2 hnd2

/-- The `pick(docRequests[0], ["atts_since", "attachments"])` base object
only ever holds the keys `atts_since` and `attachments`. -/
lemma jlookup_base_none (base : JObj) (k : String)
    (hb : ∀ q ∈ base, q.1 = "atts_since" ∨ q.1 = "attachments")
    (h1 : k ≠ "atts_since") (h4 : k ≠ "attachments") :
    jlookup base k = none := by
  induction base with
  | nil => rfl
  | cons q qt ihq =>
    have hq := hb q (List.mem_cons_self q qt)
    have hne : ¬ q.1 = k := by
      rcases hq with hq | hq
      · rw [hq]; exact fun hh => h1 hh.symm
      · rw [hq]; exact fun hh => h4 hh.symm
    have ht : jlookup qt k = none := ihq fun x hx => hb x (List.mem_cons_of_mem q hx)
    obtain ⟨qk, qv⟩ := q
    simp only [jlookup, if_neg hne, ht]

/-- Claim C9 (amended): of the spec's recognized global options, exactly
`revs, attachments, binary, ajax, latest` are copied from the invocation's
global options into every per-id fetch's `docOpts` when present, and no
key outside `atts_since, attachments, open_revs, revs, binary, ajax,
latest` ever appears in `docOpts` — but a global `atts_since` is NOT
applied: `atts_since` (like the base `attachments`) is taken from the
first request of the id's group, never from the global options (see the
counterexample). -/
theorem bulkGet_global_opts (opts : JObj) (g : List Request) :
    (∀ p ∈ bulkGetGlobalParams, ∀ v, jlookup opts p = some v →
      jlookup (buildDocOpts opts g) p = some v) ∧
    (∀ k, k ∉ "atts_since" :: "open_revs" :: bulkGetGlobalParams →
      jlookup (buildDocOpts opts g) k = none) := by
  constructor
  · intro p hp v hv
    exact jlookup_applyGlobals_mem _ _ _ _ _ hp (by decide) hv
  · intro k hk
    have hone : ∀ s : String, k = s →
        s ∈ "atts_since" :: "open_revs" :: bulkGetGlobalParams → False :=
      fun s hs hsmem => hk (hs.symm ▸ hsmem)
    have h1 : k ≠ "atts_since" := fun hh => hone _ hh (by decide)
    have h2 : k ≠ "open_revs" := fun hh => hone _ hh (by decide)
    have h4 : k ≠ "attachments" := fun hh => hone _ hh (by decide)
    have hnp : k ∉ bulkGetGlobalParams := fun hh =>
      hk (List.mem_cons_of_mem _ (List.mem_cons_of_mem _ hh))
    have hbk : ∀ q : String × JVal, q ∈ (match g with
        | [] => ([] : JObj)
        | r :: _ =>
          (match r.atts_since with
           | some v => [("atts_since", JVal.str v)] | none => []) ++
          (match r.attachments with
           | some b => [("attachments", JVal.boolean b)] | none => [])) →
        q.1 = "atts_since" ∨ q.1 = "attachments" := by
      cases g with
      | nil => intro x hx; exact absurd hx (List.not_mem_nil x)
      | cons r rt =>
        intro x hx
        rcases List.mem_append.mp hx with hx | hx
        · cases hr : r.atts_since with
          | none => rw [hr] at hx; exact absurd hx (List.not_mem_nil x)
          | some v =>
            rw [hr] at hx
            rw [List.mem_singleton.mp hx]
            left; rfl
        · cases hr : r.attachments with
          | none => rw [hr] at hx; exact absurd hx (List.not_mem_nil x)
          | some b =>
            rw [hr] at hx
            rw [List.mem_singleton.mp hx]
            right; rfl
    unfold buildDocOpts
    rw [jlookup_applyGlobals_notmem _ _ _ _ hnp]
    by_cases hempty : (g.filterMap Request.rev).isEmpty
    · rw [if_pos hempty]
      exact jlookup_base_none _ _ hbk h1 h4
    · rw [if_neg hempty, jlookup_setField_ne _ _ _ _ h2]
      exact jlookup_base_none _ _ hbk h1 h4

/-- Counterexample to claim C9 as stated: `atts_since` is among the spec's
recognized global options, is present in the global options of this
invocation, yet is absent from the `docOpts` built for the only id — the
global-options loop of `processBatch` copies only
`revs, attachments, binary, ajax, latest`. -/
theorem bulkGet_global_atts_since_dropped :
    jlookup [("atts_since", JVal.str "3-z")] "atts_since" = some (JVal.str "3-z") ∧
    jlookup
      (buildDocOpts [("atts_since", JVal.str "3-z")]
        [{ id := "a", rev := some "1-r", atts_since := none, attachments := none }])
      "atts_since" = none := by
  decide

/-- Witness for the amended claim C9: a global `revs` flag is applied to the
per-id fetch options, and an unrecognized global option (`stale`) is not. -/
theorem bulkGet_global_opts_spot :
    jlookup
      (buildDocOpts [("revs", JVal.boolean true), ("stale", JVal.str "ok")]
        [{ id := "a", rev := some "1-a", atts_since := none, attachments := none }])
      "revs" = some (JVal.boolean true) ∧
    jlookup
      (buildDocOpts [("revs", JVal.boolean true), ("stale", JVal.str "ok")]
        [{ id := "a", rev := some "1-a", atts_since := none, attachments := none }])
      "stale" = none :=
  ⟨(bulkGet_global_opts _ _).1 "revs" (by decide) _ rfl,
   (bulkGet_global_opts _ _).2 "stale" (by decide)⟩

end Pouch
